import Mathlib

/-!
Verification of the Ollama chat client's persistence, import/export and
streaming-ingestion logic, shallowly embedded from the JavaScript source
(`src/utils/storage.js`, `src/App.jsx`).

Conventions of the embedding:
* JS strings are Lean `String`, JS numbers holding `Date.now()` timestamps are
  `Nat`, JS arrays are Lean `List`.
* `Array.prototype.slice(-k)` (with `k : Nat`) is `jsSliceLast`, including the
  JS quirk that `-0 === 0`, so `slice(-0) = slice(0)` returns the whole array.
* `JSON.parse` / `JSON.stringify` are host primitives, not repository code:
  parsing of persisted snapshots is therefore a parameter
  `parse : String → Option (List Chat)` (with `none` standing for "throws or
  does not yield a chat array"), and the length of `JSON.stringify` output is
  modelled arithmetically by `chatsJsonLen` (UTF-16 code units, per-character
  escaping as JSON.stringify performs it).
-/

/-- One chat message as created by the app: `{ role: 'user'|'assistant'|'error',
content: string }`. -/
structure Message where
  role : String
  content : String
deriving DecidableEq

/-- One conversation as created by `handleSubmit` / `handleNewChat`:
`{ id, name, messages, createdAt, updatedAt }`. -/
structure Chat where
  id : String
  name : String
  messages : List Message
  createdAt : Nat
  updatedAt : Nat
deriving DecidableEq

/-- Model of JS `arr.slice(-k)` for a nonnegative `k`: the last `k` elements, the whole
array when `k` exceeds the length, and — because `-0 === 0` in JS — the whole
array when `k = 0`. -/
def jsSliceLast (l : List α) (k : Nat) : List α :=
  if k = 0 then l else l.drop (l.length - k)

/-- UTF-16 length contributed by one character inside a JSON string literal as
escaped by `JSON.stringify`: `"` and `\` become two characters, the short
escapes `\b \t \n \f \r` become two, any other control character becomes
`\uXXXX` (six), astral characters occupy two UTF-16 code units, and everything
else one. -/
def escLen (c : Char) : Nat :=
  if c = '"' ∨ c = '\\' then 2
  else if c = '\x08' ∨ c = '\t' ∨ c = '\n' ∨ c = '\x0c' ∨ c = '\r' then 2
  else if c.toNat < 0x20 then 6
  else if c.toNat ≥ 0x10000 then 2
  else 1

/-- Length of `JSON.stringify(s)` for a string `s`: two quotes plus the escaped
characters. -/
def jsonStrLen (s : String) : Nat := 2 + (s.data.map escLen).sum

/-- Number of decimal digits of `n`, the length of `JSON.stringify(n)` for the
natural timestamps stored by the app. -/
def digitsLen (n : Nat) : Nat := (Nat.toDigits 10 n).length

/-- Length of `JSON.stringify` of one message object
`{"role":R,"content":C}`: braces, the two quoted keys with colons, the comma,
and the two string values. -/
def msgJsonLen (m : Message) : Nat :=
  1 + 7 + jsonStrLen m.role + 1 + 10 + jsonStrLen m.content + 1

/-- Length of a JSON array literal whose elements serialize to the given
lengths: `[]` for the empty array, otherwise brackets plus elements plus
`n - 1` commas. -/
def jsonArrLen (xs : List Nat) : Nat :=
  match xs with
  | [] => 2
  | _ => 1 + xs.sum + (xs.length - 1) + 1

/-- Length of `JSON.stringify` of one chat object
`{"id":I,"name":N,"messages":[...],"createdAt":C,"updatedAt":U}`. -/
def chatJsonLen (c : Chat) : Nat :=
  1 + 5 + jsonStrLen c.id
    + 1 + 7 + jsonStrLen c.name
    + 1 + 11 + jsonArrLen (c.messages.map msgJsonLen)
    + 1 + 12 + digitsLen c.createdAt
    + 1 + 12 + digitsLen c.updatedAt
    + 1

/-- Length of `JSON.stringify(chats)` for a chat array. -/
def chatsJsonLen (cs : List Chat) : Nat := jsonArrLen (cs.map chatJsonLen)

/-- Constant `MAX_CHATS` in storage.js. -/
def MAX_CHATS : Nat := 100

/-- Constant `MAX_MESSAGES_PER_CHAT` in storage.js. -/
def MAX_MESSAGES_PER_CHAT : Nat := 100

/-- Constant `MAX_STORAGE_SIZE` in storage.js: `1024 * 1024 * 10`. -/
def MAX_STORAGE_SIZE : Nat := 1024 * 1024 * 10

/-- The per-chat message trim applied inside `saveChats`:
`{ ...chat, messages: chat.messages.slice(-MAX_MESSAGES_PER_CHAT) }`. -/
def trimChat (c : Chat) : Chat :=
  { c with messages := jsSliceLast c.messages MAX_MESSAGES_PER_CHAT }

/-- Value `trimmedChats` inside `saveChats`:
`chats.slice(-MAX_CHATS).map(chat => ({ ...chat, messages: chat.messages.slice(-MAX_MESSAGES_PER_CHAT) }))`. -/
def trimmedChats (chats : List Chat) : List Chat :=
  (jsSliceLast chats MAX_CHATS).map trimChat

/-- The reduction applied in the `QuotaExceededError` / `'Storage limit
exceeded'` branch of `saveChats`:
`{ ...chat, messages: chat.messages.slice(-50) }`. -/
def reduceChat (c : Chat) : Chat :=
  { c with messages := jsSliceLast c.messages 50 }

/-- Function `saveChats(chats)` from storage.js.  The value returned equals the value
written to `localStorage` in both branches: if the serialized trimmed list
exceeds `MAX_STORAGE_SIZE`, the thrown `'Storage limit exceeded'` error is
caught and the degraded list
`trimmedChats.slice(-Math.floor(trimmedChats.length / 2)).map(... slice(-50))`
is stored and returned; otherwise the trimmed list itself is stored and
returned. -/
def saveChats (chats : List Chat) : List Chat :=
  let t := trimmedChats chats
  if MAX_STORAGE_SIZE < chatsJsonLen t then
    (jsSliceLast t (t.length / 2)).map reduceChat
  else
    t

/-- The comparator of `loadChats`' sort, `(a, b) => b.updatedAt - a.updatedAt`,
as the induced "a may precede b" relation: a negative comparator value, i.e.
`b.updatedAt ≤ a.updatedAt` (ties keep original order — JS sort is stable). -/
def updatedDescBefore (a b : Chat) : Prop := b.updatedAt ≤ a.updatedAt

instance : DecidableRel updatedDescBefore :=
  fun a b => Nat.decLe b.updatedAt a.updatedAt

/-- Model of `parsedChats.sort((a, b) => b.updatedAt - a.updatedAt)`.  JS `Array.sort`
is a stable sort; a stable sort's output is uniquely determined by the
comparator, so the stable insertion sort models it exactly. -/
def jsSortChats (l : List Chat) : List Chat :=
  List.insertionSort updatedDescBefore l

/-- The `localStorage` items the chat-loading code reads: the primary snapshot
under `STORAGE_KEYS.CHATS` and the backup under `STORAGE_KEYS.BACKUP`
(`getItem` returns a string or `null`). -/
structure LocalStorage where
  chatsItem : Option String
  backupItem : Option String

/-- Function `loadBackup()` from storage.js: returns `null` when the backup item is
absent or `JSON.parse` of it fails (the `catch` branch), otherwise the parsed
chats.  `parse` stands for the host `JSON.parse` composed with the implicit
requirement that the result be a chat array. -/
def loadBackup (parse : String → Option (List Chat)) (st : LocalStorage) :
    Option (List Chat) :=
  match st.backupItem with
  | none => none
  | some s => parse s

/-- Function `loadChats()` from storage.js: parses the primary item (absent item becomes
`[]`), sorts the parsed chats by `updatedAt` descending and returns them; when
parsing (or sorting a non-array) throws, the `catch` branch returns
`loadBackup() || []` — note that this recovery path performs no sort. -/
def loadChats (parse : String → Option (List Chat)) (st : LocalStorage) :
    List Chat :=
  match st.chatsItem with
  | none => []
  | some s =>
    match parse s with
    | some chats => jsSortChats chats
    | none => (loadBackup parse st).getD []

/-- The parsed content of a single-chat JSON document as `importChat` sees it
after `JSON.parse`: each field may be absent (`none`).  JS truthiness of a
string field distinguishes `some s` with `s ≠ ""` from absent/empty. -/
structure ChatDoc where
  id : Option String
  name : Option String
  messages : Option (List Message)
  createdAt : Option Nat
  updatedAt : Option Nat
deriving DecidableEq

/-- Truthiness (in the JS sense) of an optional string field: absent and `""` are falsy. -/
def truthyStr (o : Option String) : Bool :=
  match o with
  | none => false
  | some s => s ≠ ""

/-- The document a `Chat` serializes to: all five fields present. -/
def Chat.toDoc (c : Chat) : ChatDoc :=
  ⟨some c.id, some c.name, some c.messages, some c.createdAt, some c.updatedAt⟩

/-- Function `exportChat(chat)` from storage.js writes `JSON.stringify(chat, null, 2)`
to a downloaded file; since `JSON.parse ∘ JSON.stringify` is the identity on
plain JSON data, the document read back from the exported file is the chat's
own fields. -/
def exportChat (c : Chat) : ChatDoc := c.toDoc

/-- Function `importChat(file)` from storage.js, at the level of the parsed file
content: `none` stands for file text on which `JSON.parse` throws.  The
validation `!chat.id || !chat.name || !Array.isArray(chat.messages)` throws
`'Invalid chat file format'`, but that throw is caught by the same `catch`
that handles parse failures, so every rejection reaches the caller as
`'Failed to parse chat file'`; a document passing validation resolves as-is. -/
def importChat (parsed : Option ChatDoc) : Except String ChatDoc :=
  match parsed with
  | none => .error "Failed to parse chat file"
  | some chat =>
    if truthyStr chat.id && truthyStr chat.name && chat.messages.isSome then
      .ok chat
    else
      .error "Failed to parse chat file"

/-- Function `handleImportChat(file)` from App.jsx: on success appends
`{ ...chat, id: generateId() }` to the chat list, on failure only records the
error message (`setError`), leaving the chat list unchanged.  `freshId` stands
for the `generateId()` result (host time/randomness). -/
def handleImportChat (chats : List ChatDoc) (parsed : Option ChatDoc)
    (freshId : String) : List ChatDoc × Option String :=
  match importChat parsed with
  | .ok chat => (chats ++ [{ chat with id := some freshId }], none)
  | .error m => (chats, some m)

/-- One line of the streamed response body, after the per-chunk
`chunk.split('\n')`, as the loop body of `handleSubmit` observes it:
a line whose `trim()` is empty (skipped before parsing), a line on which
`JSON.parse` throws, or a parsed record with its optional `error` and
`response` string fields. -/
inductive JsLine where
  | blank : JsLine
  | invalid : JsLine
  | frame : Option String → Option String → JsLine
deriving DecidableEq

/-- The mutable state of the streaming loop in `handleSubmit`: the running
`fullResponse` buffer and the current `messages` value last passed to
`setMessages` / `updateChat`. -/
structure StreamState where
  fullResponse : String
  messages : List Message
deriving DecidableEq

/-- The body of `for (const line of lines)` in `handleSubmit` (App.jsx with
chat persistence), for one line given the surrounding `newMessages`:
an empty-after-trim line is skipped; a line that fails `JSON.parse` is caught
and warned, state unchanged; a record with truthy `error` hits
`throw new Error(json.error)`, which the enclosing `catch` of the same loop
body swallows as a chunk-parse warning, state unchanged; a record with truthy
`response` appends to `fullResponse` and writes
`[...newMessages, { role: 'assistant', content: fullResponse }]`. -/
def processLine (newMessages : List Message) (st : StreamState) (l : JsLine) :
    StreamState :=
  match l with
  | .blank => st
  | .invalid => st
  | .frame e r =>
    if truthyStr e then st
    else
      match r with
      | some s =>
        if s = "" then st
        else
          let full := st.fullResponse ++ s
          { fullResponse := full
            messages := newMessages ++ [⟨"assistant", full⟩] }
      | none => st

/-- The streaming loop over all decoded lines of the response body. -/
def processLines (newMessages : List Message) (st : StreamState)
    (ls : List JsLine) : StreamState :=
  ls.foldl (processLine newMessages) st

/-- Invariant of the streaming loop: the message list is either still the
`newMessages` captured before the loop (no delta processed yet) or
`newMessages` extended with the single assistant message carrying the whole
accumulated buffer. -/
def StreamInv (newMessages : List Message) (st : StreamState) : Prop :=
  st.messages = newMessages ∨
  st.messages = newMessages ++ [⟨"assistant", st.fullResponse⟩]

/-- Content of the trailing assistant message of a message list, `""` when the
list is empty or ends in a non-assistant message. -/
def assistantContent (msgs : List Message) : String :=
  match msgs.getLast? with
  | some m => if m.role = "assistant" then m.content else ""
  | none => ""

/-! ### Helper lemmas -/

theorem assistantContent_concat_assistant (nm : List Message) (f : String) :
    assistantContent (nm ++ [⟨"assistant", f⟩]) = f := by
  simp [assistantContent, List.getLast?_concat]

theorem processLine_cases (nm : List Message) (st : StreamState) (l : JsLine) :
    processLine nm st l = st ∨
    ∃ s : String, processLine nm st l =
      { fullResponse := st.fullResponse ++ s
        messages := nm ++ [⟨"assistant", st.fullResponse ++ s⟩] } := by
  cases l with
  | blank => exact Or.inl rfl
  | invalid => exact Or.inl rfl
  | frame e r =>
    cases he : truthyStr e with
    | true => exact Or.inl (by simp [processLine, he])
    | false =>
      cases r with
      | none => exact Or.inl (by simp [processLine, he])
      | some s =>
        by_cases hs : s = ""
        · exact Or.inl (by simp [processLine, he, hs])
        · exact Or.inr ⟨s, by simp [processLine, he, hs]⟩

/-! ### C1: streaming growth monotonicity -/

/-- Claim C1: during one send, processing any sequence of stream lines from a
state satisfying the loop invariant (the captured `newMessages`, whose last
message is not assistant-authored, optionally extended by the single assistant
message holding the whole accumulated buffer) preserves the invariant — the
entire accumulated buffer is always written as the content of the trailing
assistant message, created on the first delta — and both the accumulated
buffer and the trailing assistant message content only ever grow by
concatenation on the right: the content after processing more records is a
prefix-extension of the content before, so the assistant message never
shrinks and never reorders. -/
theorem streaming_growth (nm : List Message) (st : StreamState)
    (hnm : assistantContent nm = "") (hinv : StreamInv nm st)
    (ls : List JsLine) :
    StreamInv nm (processLines nm st ls) ∧
    (∃ u, (processLines nm st ls).fullResponse = st.fullResponse ++ u) ∧
    (∃ t, assistantContent (processLines nm st ls).messages =
      assistantContent st.messages ++ t) := by
  induction ls generalizing st with
  | nil =>
    refine ⟨hinv, ⟨"", ?_⟩, ⟨"", ?_⟩⟩ <;> simp [processLines]
  | cons l ls ih =>
    have hmid := processLine_cases nm st l
    have hinvmid : StreamInv nm (processLine nm st l) := by
      rcases hmid with h | ⟨s, h⟩
      · rw [h]; exact hinv
      · rw [h]; exact Or.inr rfl
    obtain ⟨h1, ⟨u, hu⟩, ⟨t, ht⟩⟩ := ih (processLine nm st l) hinvmid
    have hpl : processLines nm st (l :: ls) =
        processLines nm (processLine nm st l) ls := rfl
    refine ⟨by rw [hpl]; exact h1, ?_, ?_⟩
    · rcases hmid with h | ⟨s, h⟩
      · exact ⟨u, by rw [hpl, hu, h]⟩
      · refine ⟨s ++ u, ?_⟩
        rw [hpl, hu, h]
        simp [String.append_assoc]
    · rcases hmid with h | ⟨s, h⟩
      · exact ⟨t, by rw [hpl, ht, h]⟩
      · have hmidc : assistantContent (processLine nm st l).messages =
            st.fullResponse ++ s := by
          rw [h]
          exact assistantContent_concat_assistant nm _
        rcases hinv with hstm | hstm
        · refine ⟨st.fullResponse ++ s ++ t, ?_⟩
          rw [hpl, ht, hmidc, hstm, hnm]
          simp [String.append_assoc]
        · refine ⟨s ++ t, ?_⟩
          have hc : assistantContent st.messages = st.fullResponse := by
            rw [hstm]
            exact assistantContent_concat_assistant nm _
          rw [hpl, ht, hmidc, hc]
          simp [String.append_assoc]

/-- The conversation state captured before the streaming loop in the demo
send of Scenario A: one user message, empty buffer. -/
def demoUserMsgs : List Message := [⟨"user", "Hello"⟩]

/-- Initial loop state for the demo send: empty buffer, messages as sent. -/
def demoStart : StreamState := ⟨"", demoUserMsgs⟩

/-- The two text-delta records of Scenario A. -/
def demoLines : List JsLine :=
  [.frame none (some "Hi"), .frame none (some " there")]

/-- Witness for C1 at the concrete Scenario-A send. -/
theorem streaming_growth_witness :
    StreamInv demoUserMsgs (processLines demoUserMsgs demoStart demoLines) ∧
    (∃ u, (processLines demoUserMsgs demoStart demoLines).fullResponse =
      demoStart.fullResponse ++ u) ∧
    (∃ t, assistantContent
        (processLines demoUserMsgs demoStart demoLines).messages =
      assistantContent demoStart.messages ++ t) :=
  streaming_growth demoUserMsgs demoStart (by decide) (Or.inl rfl) demoLines

/-! ### C5: explicit error records -/

/-- Claim C5, code-bug evaluation: a successfully parsed record carrying an
explicit error field is NOT surfaced as a failure: the
`throw new Error(json.error)` in the loop body is caught by the `catch` of the
very same `try` that handles `JSON.parse` failures, so the record is skipped
with a parse warning exactly like a malformed frame — the loop state is
unchanged, streaming continues, and no error-role message is appended. -/
theorem errorRecord_skipped_like_malformed :
    processLines demoUserMsgs demoStart
        [.frame (some "model failure") none] = demoStart ∧
    processLines demoUserMsgs demoStart [.invalid] = demoStart ∧
    ∀ m ∈ (processLines demoUserMsgs demoStart
        [.frame (some "model failure") none]).messages,
      m.role ≠ "error" := by
  decide

/-! ### C6: malformed frame tolerance -/

/-- Claim C6: a streamed body containing one line that fails JSON parsing amid
otherwise valid lines yields exactly the same final loop state — in
particular the same accumulated assistant message — as the same body with the
invalid line absent: the invalid line is skipped and streaming continues. -/
theorem malformed_line_no_effect (nm : List Message) (st : StreamState)
    (pre post : List JsLine) (h : ∀ l ∈ pre ++ post, l ≠ JsLine.invalid) :
    processLines nm st (pre ++ JsLine.invalid :: post) =
      processLines nm st (pre ++ post) := by
  unfold processLines
  rw [List.foldl_append, List.foldl_append]
  rfl

/-- Witness for C6: dropping the invalid middle line of a concrete
three-line body does not change the result. -/
theorem malformed_line_no_effect_witness :
    processLines demoUserMsgs demoStart
        ([.frame none (some "Hi")] ++ JsLine.invalid ::
          [.frame none (some " there")]) =
      processLines demoUserMsgs demoStart
        ([.frame none (some "Hi")] ++ [.frame none (some " there")]) :=
  malformed_line_no_effect demoUserMsgs demoStart _ _ (by decide)

/-! ### C4 and C8: load, recovery and ordering -/

/-- A persisted item that is absent, or present but on which `JSON.parse`
throws (or does not yield a chat array). -/
def unparsableOrAbsent (parse : String → Option (List Chat))
    (item : Option String) : Prop :=
  ∀ s, item = some s → parse s = none

/-- Claim C4: `loadChats` never raises (it is a total function): when the
primary snapshot is present but unparsable and the backup snapshot is present
and parsable, it returns exactly the backup's conversations; when the primary
is unparsable-or-absent and the backup is unparsable-or-absent, it returns
the empty collection. -/
theorem loadChats_recovery (parse : String → Option (List Chat))
    (st : LocalStorage) :
    (∀ p b bl, st.chatsItem = some p → parse p = none →
        st.backupItem = some b → parse b = some bl →
        loadChats parse st = bl) ∧
    (unparsableOrAbsent parse st.chatsItem →
        unparsableOrAbsent parse st.backupItem →
        loadChats parse st = []) := by
  constructor
  · intro p b bl hp hpp hb hbb
    simp [loadChats, hp, hpp, loadBackup, hb, hbb]
  · intro h1 h2
    cases hc : st.chatsItem with
    | none => simp [loadChats, hc]
    | some p =>
      have hpp := h1 p hc
      cases hb : st.backupItem with
      | none => simp [loadChats, hc, hpp, loadBackup, hb]
      | some b => simp [loadChats, hc, hpp, loadBackup, hb, h2 b hb]

/-- A concrete stand-in for `JSON.parse` restricted to chat arrays: only the
text `"good"` parses (to one chat), everything else throws. -/
def parseW : String → Option (List Chat) :=
  fun s => if s = "good" then some [⟨"a", "a", [], 0, 5⟩] else none

/-- Storage whose primary snapshot is corrupted and whose backup parses. -/
def stPrimaryCorrupt : LocalStorage := ⟨some "bad", some "good"⟩

/-- Storage whose primary and backup snapshots are both corrupted. -/
def stBothCorrupt : LocalStorage := ⟨some "bad", some "worse"⟩

/-- Witness for C4 at concrete corrupted stores. -/
theorem loadChats_recovery_witness :
    loadChats parseW stPrimaryCorrupt = [⟨"a", "a", [], 0, 5⟩] ∧
    loadChats parseW stBothCorrupt = [] := by
  constructor
  · exact (loadChats_recovery parseW stPrimaryCorrupt).1 "bad" "good" _
      rfl (by decide) rfl (by decide)
  · refine (loadChats_recovery parseW stBothCorrupt).2 ?_ ?_
    · intro s hs
      have h := Option.some.inj hs
      subst h
      decide
    · intro s hs
      have h := Option.some.inj hs
      subst h
      decide

/-- The returned chat list is ordered most-recently-updated first. -/
def sortedByUpdatedDesc (l : List Chat) : Prop :=
  l.Pairwise updatedDescBefore

instance (l : List Chat) : Decidable (sortedByUpdatedDesc l) :=
  inferInstanceAs (Decidable (l.Pairwise updatedDescBefore))

instance : IsTotal Chat updatedDescBefore :=
  ⟨fun a b => Nat.le_total b.updatedAt a.updatedAt⟩

instance : IsTrans Chat updatedDescBefore :=
  ⟨fun _ _ _ hab hbc => Nat.le_trans hbc hab⟩

/-- A chat updated before `chatNewer`. -/
def chatOlder : Chat := ⟨"o", "o", [], 0, 1⟩

/-- A chat updated after `chatOlder`. -/
def chatNewer : Chat := ⟨"w", "w", [], 0, 2⟩

/-- A stand-in for `JSON.parse` under which only the backup text `"bk"`
parses, to a list that is NOT sorted by `updatedAt` descending. -/
def parseBk : String → Option (List Chat) :=
  fun s => if s = "bk" then some [chatOlder, chatNewer] else none

/-- Storage with a corrupted primary snapshot and the unsorted backup. -/
def stBk : LocalStorage := ⟨some "corrupt", some "bk"⟩

/-- Claim C8, counterexample: when the primary snapshot is unparsable and the
result is recovered from the backup snapshot, `loadChats` returns the
backup's list in its stored order without sorting — here an order that is not
`updatedAt`-descending, refuting the claim that every load returns
conversations sorted by `updatedAt` descending. -/
theorem loadChats_backup_not_sorted :
    loadChats parseBk stBk = [chatOlder, chatNewer] ∧
    ¬ sortedByUpdatedDesc (loadChats parseBk stBk) := by
  decide

/-- Claim C8 as amended: the conversations returned by `loadChats` are sorted by
`updatedAt` descending whenever the primary snapshot parses; on the
backup-recovery path the backup's conversations are returned in their stored
order, without re-sorting. -/
theorem loadChats_sorted_on_primary (parse : String → Option (List Chat))
    (st : LocalStorage) :
    (∀ p l, st.chatsItem = some p → parse p = some l →
        sortedByUpdatedDesc (loadChats parse st)) ∧
    (∀ p b bl, st.chatsItem = some p → parse p = none →
        st.backupItem = some b → parse b = some bl →
        loadChats parse st = bl) := by
  constructor
  · intro p l hp hpl
    simp only [loadChats, hp, hpl]
    exact List.sorted_insertionSort updatedDescBefore l
  · intro p b bl hp hpp hb hbb
    simp [loadChats, hp, hpp, loadBackup, hb, hbb]

/-- Storage whose primary snapshot parses (via `parseW`). -/
def stGood : LocalStorage := ⟨some "good", none⟩

/-- Witness for the amended C8 at concrete stores. -/
theorem loadChats_sorted_on_primary_witness :
    sortedByUpdatedDesc (loadChats parseW stGood) ∧
    loadChats parseW stPrimaryCorrupt = [⟨"a", "a", [], 0, 5⟩] :=
  ⟨(loadChats_sorted_on_primary parseW stGood).1 "good"
     [⟨"a", "a", [], 0, 5⟩] rfl (by decide),
   (loadChats_sorted_on_primary parseW stPrimaryCorrupt).2 "bad" "good" _
     rfl (by decide) rfl (by decide)⟩

/-! ### C7 and C9: single-conversation export/import -/

/-- Claim C7: export/import round trip modulo id regeneration — for a
conversation with non-empty id and non-empty name (its messages field is an
array by construction), importing the document produced by exporting it is
accepted, and `handleImportChat` appends to the store a conversation equal to
the original in name and messages whose id is the freshly generated one;
under the freshness assumption on `generateId` (the generated id differs from
the original) the new id differs from the original id. -/
theorem exportImport_roundTrip (c : Chat) (store : List ChatDoc)
    (freshId : String) (hid : c.id ≠ "") (hname : c.name ≠ "")
    (hfresh : freshId ≠ c.id) :
    importChat (some (exportChat c)) = .ok c.toDoc ∧
    handleImportChat store (some (exportChat c)) freshId =
      (store ++ [{ c.toDoc with id := some freshId }], none) ∧
    ({ c.toDoc with id := some freshId } : ChatDoc).name = some c.name ∧
    ({ c.toDoc with id := some freshId } : ChatDoc).messages =
      some c.messages ∧
    ({ c.toDoc with id := some freshId } : ChatDoc).id ≠ c.toDoc.id := by
  have hok : importChat (some (exportChat c)) = .ok c.toDoc := by
    simp [importChat, exportChat, Chat.toDoc, truthyStr, hid, hname]
  refine ⟨hok, ?_, rfl, rfl, ?_⟩
  · simp [handleImportChat, hok]
  · simp [Chat.toDoc]
    exact hfresh

/-- The conversation used to witness the round trip. -/
def demoChat : Chat :=
  ⟨"orig", "greeting", [⟨"user", "hello"⟩, ⟨"assistant", "hi"⟩], 3, 4⟩

/-- Witness for C7 at a concrete conversation and fresh id. -/
theorem exportImport_roundTrip_witness :
    importChat (some (exportChat demoChat)) = .ok demoChat.toDoc ∧
    handleImportChat [] (some (exportChat demoChat)) "fresh123" =
      ([{ demoChat.toDoc with id := some "fresh123" }], none) ∧
    ({ demoChat.toDoc with id := some "fresh123" } : ChatDoc).name =
      some demoChat.name ∧
    ({ demoChat.toDoc with id := some "fresh123" } : ChatDoc).messages =
      some demoChat.messages ∧
    ({ demoChat.toDoc with id := some "fresh123" } : ChatDoc).id ≠
      demoChat.toDoc.id :=
  exportImport_roundTrip demoChat [] "fresh123"
    (by decide) (by decide) (by decide)

/-- Claim C9: single-conversation import validation — a parsed document lacking
a non-empty id (absent or `""`), lacking a non-empty name, or lacking an
array-typed messages field is rejected (the `'Invalid chat file format'`
throw, surfaced through the shared catch as the rejection the spec calls
`InvalidFormat`), and `handleImportChat` leaves the chat store unmodified;
a document with all three checks satisfied is accepted as-is. -/
theorem importChat_validation (d : ChatDoc) (store : List ChatDoc)
    (fid : String) :
    ((d.id = none ∨ d.id = some "" ∨ d.name = none ∨ d.name = some "" ∨
        d.messages = none) →
      importChat (some d) = .error "Failed to parse chat file" ∧
      (handleImportChat store (some d) fid).1 = store) ∧
    (∀ i n ms, d.id = some i → i ≠ "" → d.name = some n → n ≠ "" →
        d.messages = some ms → importChat (some d) = .ok d) := by
  constructor
  · intro h
    have hrej : importChat (some d) = .error "Failed to parse chat file" := by
      rcases h with h | h | h | h | h <;> simp [importChat, truthyStr, h]
    exact ⟨hrej, by simp [handleImportChat, hrej]⟩
  · intro i n ms hi hine hn hnne hm
    simp [importChat, truthyStr, hi, hine, hn, hnne, hm]

/-- The Scenario-C document: `{ id: "", name: "x", messages: [] }`. -/
def emptyIdDoc : ChatDoc := ⟨some "", some "x", some [], none, none⟩

/-- Witness for C9 at the Scenario-C document: rejected, store untouched. -/
theorem importChat_validation_witness :
    importChat (some emptyIdDoc) = .error "Failed to parse chat file" ∧
    (handleImportChat [] (some emptyIdDoc) "z").1 = [] :=
  (importChat_validation emptyIdDoc [] "z").1 (Or.inr (Or.inl rfl))

/-! ### C2, C3, C10: save trimming and degraded save -/

theorem jsSliceLast_length_le (l : List α) (k : Nat) (hk : k ≠ 0) :
    (jsSliceLast l k).length ≤ k := by
  simp only [jsSliceLast, if_neg hk, List.length_drop]
  omega

theorem jsSliceLast_suffix (l : List α) (k : Nat) : jsSliceLast l k <:+ l := by
  unfold jsSliceLast
  split
  · exact List.suffix_rfl
  · exact List.drop_suffix _ _

theorem jsSliceLast_ne_nil (l : List α) (k : Nat) (h : l ≠ []) :
    jsSliceLast l k ≠ [] := by
  unfold jsSliceLast
  split
  · exact h
  · intro hd
    rw [List.drop_eq_nil_iff] at hd
    have hpos : 0 < l.length := List.length_pos.mpr h
    omega

theorem map_chatId_of_preserved (f : Chat → Chat)
    (hf : ∀ c, (f c).id = c.id) (l : List Chat) :
    (l.map f).map Chat.id = l.map Chat.id := by
  rw [List.map_map]
  have hcomp : Chat.id ∘ f = Chat.id := funext hf
  rw [hcomp]

/-- Claim C2 as amended: the list persisted and returned by `saveChats` contains
at most 100 conversations and every retained conversation at most 100
messages; the retained conversations are those occupying the last positions
of the given list (the returned ids form a suffix of the input ids) — an
eviction by list position, which coincides with eviction by recency of
update only when the caller's list is ordered oldest-to-newest by
`updatedAt`. -/
theorem saveChats_bounds (chats : List Chat) :
    (saveChats chats).length ≤ MAX_CHATS ∧
    (∀ c ∈ saveChats chats, c.messages.length ≤ MAX_MESSAGES_PER_CHAT) ∧
    (saveChats chats).map Chat.id <:+ chats.map Chat.id := by
  have htlen : (trimmedChats chats).length ≤ MAX_CHATS := by
    rw [trimmedChats, List.length_map]
    exact jsSliceLast_length_le chats MAX_CHATS (by decide)
  have htmsg : ∀ c ∈ trimmedChats chats,
      c.messages.length ≤ MAX_MESSAGES_PER_CHAT := by
    intro c hc
    rw [trimmedChats] at hc
    obtain ⟨c', _, rfl⟩ := List.mem_map.mp hc
    show (jsSliceLast c'.messages MAX_MESSAGES_PER_CHAT).length ≤
      MAX_MESSAGES_PER_CHAT
    exact jsSliceLast_length_le c'.messages MAX_MESSAGES_PER_CHAT (by decide)
  have htid : (trimmedChats chats).map Chat.id <:+ chats.map Chat.id := by
    rw [trimmedChats, map_chatId_of_preserved trimChat (fun _ => rfl)]
    exact (jsSliceLast_suffix chats MAX_CHATS).map Chat.id
  simp only [saveChats]
  split
  · refine ⟨?_, ?_, ?_⟩
    · rw [List.length_map]
      exact le_trans (jsSliceLast_suffix _ _).length_le htlen
    · intro c hc
      obtain ⟨c', _, rfl⟩ := List.mem_map.mp hc
      show (jsSliceLast c'.messages 50).length ≤ MAX_MESSAGES_PER_CHAT
      exact le_trans (jsSliceLast_length_le c'.messages 50 (by decide))
        (by decide)
    · rw [map_chatId_of_preserved reduceChat (fun _ => rfl)]
      exact ((jsSliceLast_suffix _ _).map Chat.id).trans htid
  · exact ⟨htlen, htmsg, htid⟩

/-- The single most-recently-updated conversation of `chatsCE`. -/
def recentChat : Chat := ⟨"r", "r", [], 0, 1000⟩

/-- One hundred conversations all updated strictly before `recentChat`. -/
def staleChats : List Chat :=
  (List.range 100).map fun i => ⟨"s", "s", [], 0, i⟩

/-- A list of 101 conversations with the most recently updated one in first
position,
as `loadChats`' most-recent-first ordering would put it. -/
def chatsCE : List Chat := recentChat :: staleChats

/-- Claim C2, counterexample: on a list of 101 conversations whose single most
recently updated member sits in first position, `saveChats` keeps the last
100 positions and thereby evicts precisely the most recently updated
conversation — every conversation it returns was updated strictly earlier —
refuting the claim that the 100 conversations kept are the most recently
updated ones. -/
theorem saveChats_evicts_most_recent :
    MAX_CHATS < chatsCE.length ∧
    recentChat ∈ chatsCE ∧
    (∀ c ∈ staleChats, c.updatedAt < recentChat.updatedAt) ∧
    (∀ c ∈ saveChats chatsCE, c.updatedAt < recentChat.updatedAt) := by
  decide

/-- A message body of `MAX_STORAGE_SIZE` unescaped characters. -/
def bigContent : String := String.mk (List.replicate MAX_STORAGE_SIZE 'a')

/-- A single user message carrying `bigContent`. -/
def bigMsg : Message := ⟨"user", bigContent⟩

/-- A single conversation whose one message alone overflows the byte
ceiling. -/
def bigChat : Chat := ⟨"i", "n", [bigMsg], 0, 0⟩

theorem escLen_a : escLen 'a' = 1 := by decide

theorem jsonStrLen_replicate_a (n : Nat) :
    jsonStrLen (String.mk (List.replicate n 'a')) = 2 + n := by
  rw [jsonStrLen]
  rw [show (String.mk (List.replicate n 'a')).data =
    List.replicate n 'a' from rfl]
  rw [List.map_replicate, escLen_a, List.sum_replicate, smul_eq_mul, mul_one]

theorem jsonStrLen_bigContent :
    jsonStrLen bigContent = 2 + MAX_STORAGE_SIZE :=
  jsonStrLen_replicate_a MAX_STORAGE_SIZE

theorem chatsJsonLen_single (s : String) :
    chatsJsonLen [⟨"i", "n", [⟨"user", s⟩], 0, 0⟩] = 91 + jsonStrLen s := by
  have hu : jsonStrLen "user" = 6 := by decide
  have hi : jsonStrLen "i" = 3 := by decide
  have hn : jsonStrLen "n" = 3 := by decide
  have hd : digitsLen 0 = 1 := by decide
  simp only [chatsJsonLen, List.map_cons, List.map_nil, jsonArrLen,
    chatJsonLen, msgJsonLen, hi, hn, hu, hd, List.sum_cons, List.sum_nil,
    List.length_cons, List.length_nil]
  omega

theorem chatsJsonLen_bigChat :
    chatsJsonLen [bigChat] = 93 + MAX_STORAGE_SIZE := by
  have h := chatsJsonLen_single bigContent
  rw [jsonStrLen_bigContent] at h
  rw [show bigChat = ⟨"i", "n", [⟨"user", bigContent⟩], 0, 0⟩ from rfl, h]
  omega

theorem bigChat_trimmed : trimmedChats [bigChat] = [bigChat] := rfl

theorem bigChat_overflow :
    MAX_STORAGE_SIZE < chatsJsonLen (trimmedChats [bigChat]) := by
  rw [bigChat_trimmed, chatsJsonLen_bigChat]
  omega

theorem saveChats_bigChat : saveChats [bigChat] = [bigChat] := by
  simp only [saveChats]
  rw [if_pos bigChat_overflow]
  simp [trimmedChats, jsSliceLast, MAX_CHATS, MAX_MESSAGES_PER_CHAT,
    trimChat, reduceChat, bigChat, bigMsg]

/-- Claim C3, counterexample: the trimmed serialization of the single
conversation `bigChat` exceeds the 10 MiB byte ceiling, so `saveChats` takes
its overflow branch, yet the degraded list it persists and returns — which
here is `[bigChat]` unchanged, since `slice(-Math.floor(1/2)) = slice(-0)`
keeps everything and its one message survives the 50-message cap —
serializes to strictly more than the ceiling, refuting the claim that the
degraded save's serialization is at most the ceiling. -/
theorem degraded_save_exceeds_ceiling :
    MAX_STORAGE_SIZE < chatsJsonLen (trimmedChats [bigChat]) ∧
    MAX_STORAGE_SIZE < chatsJsonLen (saveChats [bigChat]) := by
  refine ⟨bigChat_overflow, ?_⟩
  rw [saveChats_bigChat, chatsJsonLen_bigChat]
  omega

/-- Claim C3 as amended: when the trimmed serialization exceeds the byte
ceiling, `saveChats` handles the overflow internally in the same call and
returns the degraded list it persisted: the conversations occupying the last
`⌊N/2⌋` positions of the `N` trimmed conversations — all `N` of them when
`⌊N/2⌋ = 0`, i.e. when `N = 1`, because `slice(-0)` keeps the whole array —
each with its messages capped at the last 50.  The degraded serialization is
not re-checked against the ceiling and may still exceed it. -/
theorem saveChats_degraded (chats : List Chat)
    (h : MAX_STORAGE_SIZE < chatsJsonLen (trimmedChats chats)) :
    (∀ c ∈ saveChats chats, c.messages.length ≤ 50) ∧
    (saveChats chats).length =
      (if (trimmedChats chats).length / 2 = 0 then (trimmedChats chats).length
        else (trimmedChats chats).length / 2) ∧
    saveChats chats <:+ (trimmedChats chats).map reduceChat := by
  have hs : saveChats chats =
      (jsSliceLast (trimmedChats chats)
        ((trimmedChats chats).length / 2)).map reduceChat := by
    simp only [saveChats]
    rw [if_pos h]
  refine ⟨?_, ?_, ?_⟩
  · intro c hc
    rw [hs] at hc
    obtain ⟨c', _, rfl⟩ := List.mem_map.mp hc
    show (jsSliceLast c'.messages 50).length ≤ 50
    exact jsSliceLast_length_le c'.messages 50 (by decide)
  · rw [hs, List.length_map]
    by_cases h0 : (trimmedChats chats).length / 2 = 0
    · rw [if_pos h0, h0]
      simp [jsSliceLast]
    · rw [if_neg h0]
      simp only [jsSliceLast, if_neg h0, List.length_drop]
      have hdiv : (trimmedChats chats).length / 2 ≤
          (trimmedChats chats).length := Nat.div_le_self _ _
      omega
  · rw [hs]
    exact (jsSliceLast_suffix _ _).map reduceChat

/-- Witness for the amended C3 at the concrete overflowing store
`[bigChat]`. -/
theorem saveChats_degraded_witness :
    MAX_STORAGE_SIZE < chatsJsonLen (trimmedChats [bigChat]) ∧
    ((∀ c ∈ saveChats [bigChat], c.messages.length ≤ 50) ∧
      (saveChats [bigChat]).length =
        (if (trimmedChats [bigChat]).length / 2 = 0
          then (trimmedChats [bigChat]).length
          else (trimmedChats [bigChat]).length / 2) ∧
      saveChats [bigChat] <:+ (trimmedChats [bigChat]).map reduceChat) :=
  ⟨bigChat_overflow, saveChats_degraded [bigChat] bigChat_overflow⟩

/-- Claim C10: the degraded (overflow) save never empties a non-empty store —
for every non-empty chat list whose trimmed serialization exceeds the byte
ceiling the degraded result keeps at least one conversation, and when the
list holds exactly one conversation, `slice(-Math.floor(1/2)) = slice(-0)`
removes nothing, so that single conversation is retained with only its
messages capped at the last 50. -/
theorem degraded_save_nonempty (chats : List Chat) (hne : chats ≠ [])
    (h : MAX_STORAGE_SIZE < chatsJsonLen (trimmedChats chats)) :
    saveChats chats ≠ [] ∧
    (∀ c, chats = [c] → saveChats chats = [reduceChat (trimChat c)]) := by
  have hs : saveChats chats =
      (jsSliceLast (trimmedChats chats)
        ((trimmedChats chats).length / 2)).map reduceChat := by
    simp only [saveChats]
    rw [if_pos h]
  constructor
  · rw [hs]
    have ht : trimmedChats chats ≠ [] := by
      rw [trimmedChats]
      intro hmap
      exact jsSliceLast_ne_nil chats MAX_CHATS hne (List.map_eq_nil_iff.mp hmap)
    intro hmap
    exact jsSliceLast_ne_nil _ _ ht (List.map_eq_nil_iff.mp hmap)
  · intro c hc
    subst hc
    rw [hs]
    simp [trimmedChats, jsSliceLast, MAX_CHATS]

/-- Witness for C10 at the concrete one-conversation overflowing store. -/
theorem degraded_save_nonempty_witness :
    saveChats [bigChat] ≠ [] ∧
    (∀ c, [bigChat] = [c] → saveChats [bigChat] = [reduceChat (trimChat c)]) :=
  degraded_save_nonempty [bigChat] (by simp) bigChat_overflow
